import Mathlib

/-!
Verification of `c_get_tile` (src/core_terrain/read_tile.c), the tile
decoder of the terrain component.

Shallow embedding conventions:
* Bytes from the file are `Nat` (a C `unsigned char` is `< 256`; claims
  about byte values carry that bound as a hypothesis).
* The outcome of each system call (`open`, `read`, `close`) is an input
  of the model, packaged in `FileEnv`: the C function's behaviour is a
  pure function of its arguments and of those outcomes.
* Uninitialised memory (the tail of `buf` after a short read, the cells
  of `tile_1d` that the `switch` never writes) is `Option.none`.
* The sample values are modelled as `Int`: every value the decoder can
  produce lies in [-32768, 32767], where the C cast to `float` is exact,
  so widening to `float` is the identity on the modelled domain.
-/

/-- Big-endian 16-bit decode of the `case 2:` branch of the `switch`
(read_tile.c lines 82–96): `value = (int)(buf[2i] << 8 | buf[2i+1])`,
then `value -= 1 << (8 * word_size)` when `buf[2i] >> 7 == 1`. -/
def decode16 (b0 b1 : Nat) : Int :=
  if b0 >>> 7 = 1 then ((b0 <<< 8) ||| b1 : Nat) - ((1 <<< (8 * 2) : Nat) : Int)
  else ((b0 <<< 8) ||| b1 : Nat)

/-- The raw byte buffer `buf` after `read` returned `bytes`: cell `i`
holds the `i`-th byte read, and is uninitialised past the bytes read
(`malloc` gives indeterminate contents). -/
def bufCell (bytes : List Nat) (i : Nat) : Option Nat :=
  bytes[i]?

/-- Cell `i` of `tile_1d` after the decoding loop (read_tile.c lines
80–98): for `word_size == 2` it is the decoded sample from bytes
`word_size*i` and `word_size*i + 1`; for any other `word_size` the
`switch` has no case and the cell stays uninitialised. -/
def tile1d (word_size : Nat) (bytes : List Nat) (i : Nat) : Option Int :=
  if word_size = 2 then
    match bufCell bytes (word_size * i), bufCell bytes (word_size * i + 1) with
    | some b0, some b1 => some (decode16 b0 b1)
    | _, _ => none
  else
    none

/-- The sequence of writes performed by the remap loops (read_tile.c
lines 100–105), in execution order: outer loop `j < dx + x_offset`,
inner loop `i < dy + y_offset`, each iteration writing source index
`(dx + x_offset) * j + i` of `tile_1d` to destination index
`i * dx + j` of `tile`. Pairs are `(destination, source)`. -/
def remapWrites (dx dy x_offset y_offset : Nat) : List (Nat × Nat) :=
  (List.range (dx + x_offset)).flatMap fun j =>
    (List.range (dy + y_offset)).map fun i =>
      (i * dx + j, (dx + x_offset) * j + i)

/-- One store into the caller's `tile` memory, modelled as a point
update of a memory function. -/
def writeTile (t : Nat → Option Int) (idx : Nat) (v : Option Int) :
    Nat → Option Int :=
  fun k => if k = idx then v else t k

/-- The caller's `tile` memory after the remap loops, starting from its
initial contents `tile0`. -/
def remap (dx dy x_offset y_offset : Nat) (sample : Nat → Option Int)
    (tile0 : Nat → Option Int) : Nat → Option Int :=
  (remapWrites dx dy x_offset y_offset).foldl
    (fun t p => writeTile t p.1 (sample p.2)) tile0

/-- Outcomes of the three system calls made by `c_get_tile`, an input of
the model. `readResult = none` models `read` returning `-1`; otherwise
it carries the bytes the call delivered (possibly fewer than asked). -/
structure FileEnv where
  openOk : Bool
  readResult : Option (List Nat)
  closeOk : Bool
deriving DecidableEq

/-- Observable outcome of one `c_get_tile` call: the returned status,
whether `free(buf)` was executed, whether `close(fd)` was invoked, and
the caller's `tile` memory afterwards. -/
structure GetTileResult where
  status : Int
  bufFreed : Bool
  closeCalled : Bool
  tile : Nat → Option Int

/-- `c_get_tile` (read_tile.c lines 42–110). `narray = (dx + x_offset)
* (dy + y_offset)`; `buf` is allocated, then: open failure returns `-1`
(lines 63–67, no `free`, no `close`); read failure returns `-1` (lines
70–73, no `free`, no `close`); close failure returns `-1` (lines 74–77,
no `free`); otherwise the decode and remap loops run, `buf` is freed
and `1` is returned. `read` delivers at most the `word_size * narray`
bytes requested, hence the `List.take`. -/
def c_get_tile (env : FileEnv) (dx dy x_offset y_offset word_size : Nat)
    (tile0 : Nat → Option Int) : GetTileResult :=
  let narray := (dx + x_offset) * (dy + y_offset)
  if env.openOk = false then
    { status := -1, bufFreed := false, closeCalled := false, tile := tile0 }
  else
    match env.readResult with
    | none =>
        { status := -1, bufFreed := false, closeCalled := false, tile := tile0 }
    | some bytesRead =>
        let bytes := bytesRead.take (word_size * narray)
        if env.closeOk = false then
          { status := -1, bufFreed := false, closeCalled := true, tile := tile0 }
        else
          { status := 1, bufFreed := true, closeCalled := true,
            tile := remap dx dy x_offset y_offset (tile1d word_size bytes) tile0 }

/-- Arithmetic form of `decode16` on genuine byte values: compose
`b0 * 256 + b1` and subtract `65536` when the top bit of `b0` is set. -/
theorem decode16_eq (b0 b1 : Nat) (h0 : b0 < 256) (h1 : b1 < 256) :
    decode16 b0 b1 =
      if 128 ≤ b0 then ((b0 * 256 + b1 : Nat) : Int) - 65536
      else ((b0 * 256 + b1 : Nat) : Int) := by
  have hor : (b0 <<< 8) ||| b1 = b0 * 256 + b1 := by
    have hs : b0 <<< 8 = 2 ^ 8 * b0 := by
      rw [Nat.shiftLeft_eq]; ring
    have h1' : b1 < 2 ^ 8 := by
      have hp : (2 : Nat) ^ 8 = 256 := by norm_num
      omega
    rw [hs, ← Nat.mul_add_lt_is_or h1']
    ring
  have hsr : b0 >>> 7 = b0 / 128 := by
    rw [Nat.shiftRight_eq_div_pow]
  have hbit : (b0 >>> 7 = 1) ↔ 128 ≤ b0 := by
    rw [hsr]; omega
  have h16 : ((1 <<< (8 * 2) : Nat) : Int) = 65536 := by
    norm_num [Nat.shiftLeft_eq]
  simp only [decode16, hor, hbit, h16]

/-- Membership characterisation of the remap write list. -/
theorem mem_remapWrites (dx dy x_offset y_offset : Nat) (p : Nat × Nat) :
    p ∈ remapWrites dx dy x_offset y_offset ↔
      ∃ i j, i < dy + y_offset ∧ j < dx + x_offset ∧
        p = (i * dx + j, (dx + x_offset) * j + i) := by
  unfold remapWrites
  simp only [List.mem_flatMap, List.mem_map, List.mem_range]
  constructor
  · rintro ⟨j, hj, i, hi, hp⟩
    exact ⟨i, j, hi, hj, hp.symm⟩
  · rintro ⟨i, j, hi, hj, hp⟩
    exact ⟨j, hj, i, hi, hp.symm⟩

/-- Writes whose stored value is `none` leave every memory cell either
at its initial value or uninitialised. -/
theorem foldl_writeTile_none (sample : Nat → Option Int) (l : List (Nat × Nat))
    (hl : ∀ p ∈ l, sample p.2 = none) (tile0 : Nat → Option Int) (k : Nat) :
    (l.foldl (fun t p => writeTile t p.1 (sample p.2)) tile0) k = tile0 k ∨
    (l.foldl (fun t p => writeTile t p.1 (sample p.2)) tile0) k = none := by
  induction l generalizing tile0 with
  | nil => exact Or.inl rfl
  | cons p l ih =>
    simp only [List.foldl_cons]
    rcases ih (fun q hq => hl q (List.mem_cons_of_mem _ hq))
        (writeTile tile0 p.1 (sample p.2)) with h | h
    · rw [h]
      simp only [writeTile]
      by_cases hk : k = p.1
      · rw [if_pos hk, hl p (List.mem_cons_self _ _)]
        exact Or.inr rfl
      · rw [if_neg hk]
        exact Or.inl rfl
    · exact Or.inr h

/-- C1: the remap step performs, for every `i < dy + y_offset` and
`j < dx + x_offset`, the write of flat sample position
`(dx + x_offset) * j + i` to output position `i * dx + j` — and only
such writes; because the loops run over the full padded extent, when
`x_offset` or `y_offset` is non-zero some write lands at a flat index
at or beyond the declared `dx * dy` size of the output buffer. -/
theorem remap_transpose_and_out_of_bounds (dx dy x_offset y_offset : Nat)
    (hdx : 0 < dx) (hdy : 0 < dy) (hoff : 0 < x_offset ∨ 0 < y_offset) :
    (∀ sample tile0, remap dx dy x_offset y_offset sample tile0 =
      (remapWrites dx dy x_offset y_offset).foldl
        (fun t p => writeTile t p.1 (sample p.2)) tile0) ∧
    (∀ i j, i < dy + y_offset → j < dx + x_offset →
      (i * dx + j, (dx + x_offset) * j + i) ∈ remapWrites dx dy x_offset y_offset) ∧
    (∀ p ∈ remapWrites dx dy x_offset y_offset,
      ∃ i j, i < dy + y_offset ∧ j < dx + x_offset ∧
        p = (i * dx + j, (dx + x_offset) * j + i)) ∧
    (∃ p ∈ remapWrites dx dy x_offset y_offset, dx * dy ≤ p.1) := by
  refine ⟨fun _ _ => rfl, ?_, ?_, ?_⟩
  · intro i j hi hj
    exact (mem_remapWrites _ _ _ _ _).mpr ⟨i, j, hi, hj, rfl⟩
  · intro p hp
    exact (mem_remapWrites _ _ _ _ _).mp hp
  · rcases hoff with hx | hy
    · refine ⟨((dy - 1) * dx + dx, (dx + x_offset) * dx + (dy - 1)),
        (mem_remapWrites _ _ _ _ _).mpr ⟨dy - 1, dx, by omega, by omega, rfl⟩, ?_⟩
      have h3 : (dy - 1) * dx + dx = dy * dx := by
        cases dy with
        | zero => exact absurd hdy (by omega)
        | succ n => simp [Nat.succ_sub_one, Nat.succ_mul]
      simp only [h3]
      rw [Nat.mul_comm]
    · refine ⟨(dy * dx + 0, (dx + x_offset) * 0 + dy),
        (mem_remapWrites _ _ _ _ _).mpr ⟨dy, 0, by omega, by omega, rfl⟩, ?_⟩
      simp only []
      rw [Nat.mul_comm]
      omega

/-- Witness for C1 at `dx = dy = 1`, `x_offset = 1`, `y_offset = 0`:
the write of sample position `2` to output position `1` is performed,
and output index `1` is at or beyond the `1 * 1` buffer size. -/
theorem remap_transpose_and_out_of_bounds_witness :
    ((0 : Nat) * 1 + 1, (1 + 1) * 1 + 0) ∈ remapWrites 1 1 1 0 :=
  (remap_transpose_and_out_of_bounds 1 1 1 0 (by decide) (by decide)
    (Or.inl (by decide))).2.1 0 1 (by decide) (by decide)

/-- C2: for `word_size == 2` each sample is decoded big-endian from two
successive bytes (first byte shifted left 8 bits, OR-ed with the second
byte) and sign-extended by subtracting `2^16 = 65536` when the top bit
of the first byte is set; the four reference byte pairs decode to
`-1`, `1`, `32767` and `-32768`. -/
theorem decode16_big_endian_sign_extension :
    (∀ bytes : List Nat, ∀ i b0 b1 : Nat,
      bufCell bytes (2 * i) = some b0 → bufCell bytes (2 * i + 1) = some b1 →
      tile1d 2 bytes i = some (decode16 b0 b1)) ∧
    (∀ b0 b1 : Nat, b0 < 256 → b1 < 256 →
      decode16 b0 b1 =
        if 128 ≤ b0 then ((b0 * 256 + b1 : Nat) : Int) - 65536
        else ((b0 * 256 + b1 : Nat) : Int)) ∧
    decode16 0xFF 0xFF = -1 ∧ decode16 0x00 0x01 = 1 ∧
    decode16 0x7F 0xFF = 32767 ∧ decode16 0x80 0x00 = -32768 := by
  refine ⟨?_, decode16_eq, by decide, by decide, by decide, by decide⟩
  intro bytes i b0 b1 h0 h1
  simp [tile1d, h0, h1]

/-- Witness for C2: the byte pair `0xFF 0xFF` at sample index 0 decodes
to `-1`. -/
theorem decode16_big_endian_sign_extension_witness :
    tile1d 2 [0xFF, 0xFF] 0 = some (-1) := by
  have h := decode16_big_endian_sign_extension
  rw [h.1 [0xFF, 0xFF] 0 0xFF 0xFF rfl rfl, h.2.2.1]

/-- C3 (refuted: the code leaks): whenever `c_get_tile` returns `-1`
— open failed, read failed, or close failed — `free(buf)` was not
executed; the buffer is freed only on the success path. -/
theorem c_get_tile_no_free_on_failure (env : FileEnv)
    (dx dy x_offset y_offset word_size : Nat) (tile0 : Nat → Option Int) :
    ((c_get_tile env dx dy x_offset y_offset word_size tile0).status = -1 →
      (c_get_tile env dx dy x_offset y_offset word_size tile0).bufFreed = false) ∧
    ((c_get_tile env dx dy x_offset y_offset word_size tile0).status = 1 →
      (c_get_tile env dx dy x_offset y_offset word_size tile0).bufFreed = true) := by
  obtain ⟨o, r, c⟩ := env
  cases o <;> cases r <;> cases c <;> simp [c_get_tile]

/-- Witness for C3: on a failed `open` the call returns with the raw
buffer still allocated. -/
theorem c_get_tile_no_free_on_failure_witness :
    (c_get_tile ⟨false, none, false⟩ 1 1 0 0 2 (fun _ => none)).bufFreed = false :=
  (c_get_tile_no_free_on_failure ⟨false, none, false⟩ 1 1 0 0 2 (fun _ => none)).1 rfl

/-- C4: the returned status is `1` exactly when open, read and close all
succeed, and `-1` exactly when any of the three fails; no other code is
ever returned. -/
theorem c_get_tile_status_iff (env : FileEnv)
    (dx dy x_offset y_offset word_size : Nat) (tile0 : Nat → Option Int) :
    ((c_get_tile env dx dy x_offset y_offset word_size tile0).status = 1 ↔
      (env.openOk = true ∧ env.readResult.isSome = true ∧ env.closeOk = true)) ∧
    ((c_get_tile env dx dy x_offset y_offset word_size tile0).status = -1 ↔
      (env.openOk = false ∨ env.readResult = none ∨ env.closeOk = false)) ∧
    ((c_get_tile env dx dy x_offset y_offset word_size tile0).status = 1 ∨
      (c_get_tile env dx dy x_offset y_offset word_size tile0).status = -1) := by
  obtain ⟨o, r, c⟩ := env
  cases o <;> cases r <;> cases c <;> simp [c_get_tile]

/-- C5: on every failure exit the caller's output buffer is untouched:
a `-1` status implies the `tile` memory is exactly its initial state. -/
theorem c_get_tile_output_unchanged_on_failure (env : FileEnv)
    (dx dy x_offset y_offset word_size : Nat) (tile0 : Nat → Option Int)
    (h : (c_get_tile env dx dy x_offset y_offset word_size tile0).status = -1) :
    (c_get_tile env dx dy x_offset y_offset word_size tile0).tile = tile0 := by
  obtain ⟨o, r, c⟩ := env
  cases o <;> cases r <;> cases c <;> simp_all [c_get_tile]

/-- Witness for C5: with a failed `open` the output memory is returned
exactly as supplied. -/
theorem c_get_tile_output_unchanged_on_failure_witness :
    (c_get_tile ⟨false, none, true⟩ 1 1 0 0 2 (fun _ => some 5)).tile =
      (fun _ => some 5) :=
  c_get_tile_output_unchanged_on_failure ⟨false, none, true⟩ 1 1 0 0 2
    (fun _ => some 5) rfl

/-- C6: for any `word_size` other than `2` the call still consumes the
read bytes and still returns status `1`, but the `switch` performs no
conversion: every `tile_1d` cell stays uninitialised, so each output
cell is either its initial value or an undefined (uninitialised)
value — never decoded data. -/
theorem c_get_tile_unsupported_word_size (env : FileEnv)
    (dx dy x_offset y_offset word_size : Nat) (tile0 : Nat → Option Int)
    (bytes : List Nat) (hws : word_size ≠ 2) (ho : env.openOk = true)
    (hr : env.readResult = some bytes) (hc : env.closeOk = true) :
    (c_get_tile env dx dy x_offset y_offset word_size tile0).status = 1 ∧
    (∀ bs : List Nat, ∀ i : Nat, tile1d word_size bs i = none) ∧
    (∀ k, (c_get_tile env dx dy x_offset y_offset word_size tile0).tile k = tile0 k ∨
      (c_get_tile env dx dy x_offset y_offset word_size tile0).tile k = none) := by
  rcases env with ⟨o, r, c⟩
  replace ho : o = true := ho
  replace hr : r = some bytes := hr
  replace hc : c = true := hc
  subst ho; subst hr; subst hc
  have hnone : ∀ bs : List Nat, ∀ i : Nat, tile1d word_size bs i = none := by
    intro bs i
    simp [tile1d, hws]
  exact ⟨rfl, hnone, fun k =>
    foldl_writeTile_none _ _ (fun p _ => hnone _ _) tile0 k⟩

/-- Witness for C6: `word_size = 1` with bytes present still reports
success and leaves the single output cell undefined. -/
theorem c_get_tile_unsupported_word_size_witness :
    (c_get_tile ⟨true, some [7, 7], true⟩ 1 1 0 0 1 (fun _ => none)).status = 1 ∧
    tile1d 1 [7, 7] 0 = none := by
  have h := c_get_tile_unsupported_word_size ⟨true, some [7, 7], true⟩ 1 1 0 0 1
    (fun _ => none) [7, 7] (by decide) rfl rfl rfl
  exact ⟨h.1, h.2.1 [7, 7] 0⟩

/-- C7: a read that delivers fewer bytes than the requested
`word_size * (dx + x_offset) * (dy + y_offset)` is not treated as a
failure: the call still proceeds to the decode and remap steps and
returns status `1`. -/
theorem c_get_tile_short_read_success (env : FileEnv)
    (dx dy x_offset y_offset word_size : Nat) (tile0 : Nat → Option Int)
    (bytes : List Nat) (ho : env.openOk = true) (hr : env.readResult = some bytes)
    (hc : env.closeOk = true)
    (_hshort : bytes.length < word_size * ((dx + x_offset) * (dy + y_offset))) :
    (c_get_tile env dx dy x_offset y_offset word_size tile0).status = 1 ∧
    (c_get_tile env dx dy x_offset y_offset word_size tile0).tile =
      remap dx dy x_offset y_offset
        (tile1d word_size
          (bytes.take (word_size * ((dx + x_offset) * (dy + y_offset)))))
        tile0 := by
  rcases env with ⟨o, r, c⟩
  replace ho : o = true := ho
  replace hr : r = some bytes := hr
  replace hc : c = true := hc
  subst ho; subst hr; subst hc
  exact ⟨rfl, rfl⟩

/-- Witness for C7: an empty read against a 1×1 16-bit request (2 bytes
asked, 0 delivered) still returns status `1`. -/
theorem c_get_tile_short_read_success_witness :
    (c_get_tile ⟨true, some [], true⟩ 1 1 0 0 2 (fun _ => none)).status = 1 :=
  (c_get_tile_short_read_success ⟨true, some [], true⟩ 1 1 0 0 2 (fun _ => none)
    [] rfl rfl rfl (by decide)).1

/-- C8: `c_get_tile` is deterministic: identical arguments and identical
system-call outcomes (same file contents delivered) give the same status
and the same output memory, cell for cell. -/
theorem c_get_tile_deterministic (env1 env2 : FileEnv)
    (dx dy x_offset y_offset word_size : Nat) (tile0 : Nat → Option Int)
    (h : env1 = env2) :
    (c_get_tile env1 dx dy x_offset y_offset word_size tile0).status =
      (c_get_tile env2 dx dy x_offset y_offset word_size tile0).status ∧
    ∀ k, (c_get_tile env1 dx dy x_offset y_offset word_size tile0).tile k =
      (c_get_tile env2 dx dy x_offset y_offset word_size tile0).tile k := by
  subst h
  exact ⟨rfl, fun _ => rfl⟩

/-- Witness for C8: two identical successful calls agree on the status. -/
theorem c_get_tile_deterministic_witness :
    (c_get_tile ⟨true, some [0, 1], true⟩ 1 1 0 0 2 (fun _ => none)).status =
      (c_get_tile ⟨true, some [0, 1], true⟩ 1 1 0 0 2 (fun _ => none)).status :=
  (c_get_tile_deterministic ⟨true, some [0, 1], true⟩ ⟨true, some [0, 1], true⟩
    1 1 0 0 2 (fun _ => none) rfl).1

/-- C9: every decoded 16-bit sample lies in the two's-complement range
[-32768, 32767]; its magnitude is at most `2^24`, the bound below which
every integer is exactly representable in single-precision float. -/
theorem decoded_sample_range (bytes : List Nat) (hb : ∀ b ∈ bytes, b < 256)
    (i : Nat) (v : Int) (hv : tile1d 2 bytes i = some v) :
    -32768 ≤ v ∧ v ≤ 32767 ∧ v.natAbs ≤ 2 ^ 24 := by
  rw [tile1d] at hv
  simp only [if_pos rfl] at hv
  cases h0 : bufCell bytes (2 * i) with
  | none => rw [h0] at hv; cases hv
  | some b0 =>
    cases h1 : bufCell bytes (2 * i + 1) with
    | none => rw [h0, h1] at hv; cases hv
    | some b1 =>
      rw [h0, h1] at hv
      have hveq : v = decode16 b0 b1 := (Option.some.injEq _ _ ▸ hv).symm
      have hb0 : b0 < 256 := hb b0 (List.getElem?_mem h0)
      have hb1 : b1 < 256 := hb b1 (List.getElem?_mem h1)
      have hpow : (2 : Nat) ^ 24 = 16777216 := by norm_num
      rw [hveq, decode16_eq b0 b1 hb0 hb1, hpow]
      split_ifs <;> exact ⟨by omega, by omega, by omega⟩

/-- Witness for C9: the sample decoded from `0x80 0x00` is in range. -/
theorem decoded_sample_range_witness :
    -32768 ≤ (-32768 : Int) ∧ (-32768 : Int) ≤ 32767 ∧
      (-32768 : Int).natAbs ≤ 2 ^ 24 :=
  decoded_sample_range [0x80, 0x00] (by decide) 0 (-32768) (by decide)

/-- C10: when `read` fails the call returns `-1` without invoking
`close` on the descriptor it opened; `close` is invoked only on paths
where the read call succeeded. -/
theorem c_get_tile_fd_leak_on_read_failure (env : FileEnv)
    (dx dy x_offset y_offset word_size : Nat) (tile0 : Nat → Option Int) :
    ((env.openOk = true → env.readResult = none →
      (c_get_tile env dx dy x_offset y_offset word_size tile0).status = -1 ∧
      (c_get_tile env dx dy x_offset y_offset word_size tile0).closeCalled = false)) ∧
    ((c_get_tile env dx dy x_offset y_offset word_size tile0).closeCalled = true →
      env.readResult.isSome = true) := by
  obtain ⟨o, r, c⟩ := env
  cases o <;> cases r <;> cases c <;> simp [c_get_tile]

/-- Witness for C10: a failed read after a successful open returns `-1`
with the descriptor never closed. -/
theorem c_get_tile_fd_leak_on_read_failure_witness :
    (c_get_tile ⟨true, none, true⟩ 1 1 0 0 2 (fun _ => none)).status = -1 ∧
    (c_get_tile ⟨true, none, true⟩ 1 1 0 0 2 (fun _ => none)).closeCalled = false :=
  (c_get_tile_fd_leak_on_read_failure ⟨true, none, true⟩ 1 1 0 0 2
    (fun _ => none)).1 rfl rfl
